import Mathlib

/-!
Verification of the trading engine of `project_bongni` against its
natural-language specification.

The development shallowly embeds the Python sources:
  * `src/config.py`       (`Config.__init__`)            → `Config`, `Config.init`
  * `src/risk_manager.py` (`Position`, `RiskManager`)    → `Position`, `RMState` and
    the functions `calculate_position_size`, `can_open_position`, `open_position`,
    `close_position`, `get_equity_curve`, `get_current_drawdown`, `check_daily_targets`
  * `src/data_handler.py` (`DataHandler.update_realtime`, `_finalize_minute_bar`,
    `_prune_old_bars`)                                   → `DHState`, `update_realtime`,
    `finalize_minute_bar`, `aggregate_ticks`, `prune_old_bars`
  * `src/trading_bot.py`  (`TradingBot.generate_signals`) → `Decision`,
    `generate_decision`, `generate_signals`

Python floats are modelled as exact rationals (ℚ), datetimes as integer second
counts in the exchange-local wall clock (timezone conversion preserves the
instant and offsets are whole minutes, so flooring to the minute commutes with
the conversion), and Python dicts as insertion-ordered association lists.
-/

/-- Tick dictionary handed to `DataHandler.update_realtime`:
`{'datetime': ..., 'price': ..., 'volume': ...}`.  `dt` is the tick time in
seconds of exchange-local wall-clock time. -/
structure Tick where
  dt : ℤ
  price : ℚ
  volume : ℚ
deriving DecidableEq, Repr

/-- One row of `DataHandler.historical_data[symbol]`: a finalized 1-minute bar.
The indicator columns (`ema_short`, ..., `atr`) recomputed by
`_compute_all_indicators` extend the row but never change the OHLCV fields or
the row set, and no claim refers to their values, so they are not carried.
The field names follow the local variables of `_finalize_minute_bar`
(`open` is a Lean keyword, so the source's `open_p`, `high_p`, `low_p`,
`close_p` spellings are used). -/
structure Bar where
  ts : ℤ
  open_p : ℚ
  high_p : ℚ
  low_p : ℚ
  close_p : ℚ
  volume : ℚ
deriving DecidableEq, Repr

/-- Embedding of `Config` (src/config.py).  Only the attributes read by the
risk manager, data handler and trading bot are carried.
`atr_stop_multiplier` / `atr_take_multiplier` model the values produced by
`getattr(self.config, "atr_stop_multiplier", 1.0)` (resp. `..., 2.0`) in
`calculate_position_size`; `Config.__init__` never defines these attributes.
`data_handler_ref` models the optional `_data_handler_ref` attribute read by
`RiskManager._get_latest_atr` via `getattr(self.config, "_data_handler_ref",
None)`; when present it is abstracted to the map sending a symbol to the last
value of `historical_data[symbol]['atr']` (`none` when the frame is missing,
empty or lacks the column). -/
structure Config where
  initial_capital : ℚ
  max_position_pct : ℚ
  target_daily_return_pct : ℚ
  stop_loss_pct : ℚ
  take_profit_pct : ℚ
  daily_max_loss_pct : ℚ
  ema_short_period : ℕ
  ema_long_period : ℕ
  rsi_period : ℕ
  bb_period : ℕ
  atr_stop_multiplier : ℚ
  atr_take_multiplier : ℚ
  data_handler_ref : Option (String → Option ℚ)

/-- Embeds `Config.__init__` (src/config.py lines 141-213): sets the numeric risk and
indicator attributes from the validated JSON dictionary.  It never sets
`_data_handler_ref`, nor `atr_stop_multiplier` / `atr_take_multiplier`, so a
constructed object yields `None` for the first and the `getattr` defaults
`1.0` / `2.0` for the other two. -/
def Config.init (initial_capital max_position_pct target_daily_return_pct
    stop_loss_pct take_profit_pct daily_max_loss_pct : ℚ)
    (ema_short_period ema_long_period rsi_period bb_period : ℕ) : Config :=
  { initial_capital := initial_capital
    max_position_pct := max_position_pct
    target_daily_return_pct := target_daily_return_pct
    stop_loss_pct := stop_loss_pct
    take_profit_pct := take_profit_pct
    daily_max_loss_pct := daily_max_loss_pct
    ema_short_period := ema_short_period
    ema_long_period := ema_long_period
    rsi_period := rsi_period
    bb_period := bb_period
    atr_stop_multiplier := 1
    atr_take_multiplier := 2
    data_handler_ref := none }

/-- Embedding of `Position` (src/risk_manager.py lines 12-38).
`entry_time` is dropped: it is only echoed into the trade record and read by
`get_equity_curve` for timestamps, which the model represents by list order
(see `get_equity_curve`). -/
structure Position where
  symbol : String
  entry_price : ℚ
  quantity : ℤ
  stop_loss_price : ℚ
  take_profit_price : ℚ
  is_open : Bool
deriving DecidableEq, Repr

/-- Embeds `Position.check_stop_loss` (src/risk_manager.py line 34). -/
def Position.check_stop_loss (p : Position) (current_price : ℚ) : Bool :=
  current_price ≤ p.stop_loss_price

/-- Embeds `Position.check_take_profit` (src/risk_manager.py line 37). -/
def Position.check_take_profit (p : Position) (current_price : ℚ) : Bool :=
  current_price ≥ p.take_profit_price

/-- One entry of `RiskManager.trade_history` (src/risk_manager.py lines
234-243).  `entry_time` / `exit_time` are dropped: `close_position` stamps
them with `datetime.utcnow()`, so they are non-decreasing in append order and
`get_equity_curve`'s sort by timestamp is the identity; the model keeps the
records in append order. -/
structure TradeRecord where
  symbol : String
  entry_price : ℚ
  exit_price : ℚ
  quantity : ℤ
  pnl : ℚ
  equity_after : ℚ
deriving DecidableEq, Repr

/-- State of a `RiskManager` (src/risk_manager.py lines 53-67): account
capital, available cash, the open-position dict (insertion-ordered
association list), the trade history and the daily starting capital. -/
structure RMState where
  config : Config
  capital : ℚ
  available_cash : ℚ
  positions : List (String × Position)
  trade_history : List TradeRecord
  daily_starting_capital : ℚ

/-- Embeds `RiskManager.__init__` (src/risk_manager.py lines 53-67). -/
def RMState.init (config : Config) : RMState :=
  { config := config
    capital := config.initial_capital
    available_cash := config.initial_capital
    positions := []
    trade_history := []
    daily_starting_capital := config.initial_capital }

/-- Embeds `RiskManager._get_latest_atr` (src/risk_manager.py lines 69-82):
`getattr(self.config, "_data_handler_ref", None)`; `None` when the attribute
is absent, otherwise the last ATR value for the symbol (`none` abstracting the
missing-frame / empty-frame / missing-column early returns). -/
def get_latest_atr (config : Config) (symbol : String) : Option ℚ :=
  match config.data_handler_ref with
  | none => none
  | some dh => dh symbol

/-- The percent-based fallback branch of `calculate_position_size`
(src/risk_manager.py lines 135-151), as its own function.  The spec describes
it as: `maxValue = capital × maxPositionPct`; `qty = floor(maxValue / price)`;
infeasible if `qty < 1` or `price×qty > availableCash`; else
`stopLoss = price×(1−stopLossPct/100)`, `takeProfit = price×(1+takeProfitPct/100)`. -/
def percent_based_sizing (rm : RMState) (price : ℚ) : Option (ℤ × ℚ × ℚ) :=
  let max_value := rm.capital * rm.config.max_position_pct
  let qty : ℤ := ⌊max_value / price⌋
  if qty < 1 then none
  else
    let required_cash := price * qty
    if required_cash > rm.available_cash then none
    else
      let sl_price := price * (1 - rm.config.stop_loss_pct / 100)
      let tp_price := price * (1 + rm.config.take_profit_pct / 100)
      some (qty, sl_price, tp_price)

/-- Embeds `RiskManager.calculate_position_size` (src/risk_manager.py lines 84-151).
`int(a // b)` on Python floats is `⌊a / b⌋`.  The ATR branch runs only when
`_get_latest_atr` returns a value `> 0` (a NaN stored in the `atr` column
fails the `> 0` comparison exactly like a non-positive rational). -/
def calculate_position_size (rm : RMState) (symbol : String) (price : ℚ) :
    Option (ℤ × ℚ × ℚ) :=
  match get_latest_atr rm.config symbol with
  | some atr =>
    if atr > 0 then
      let dollar_risk_per_share := atr * rm.config.atr_stop_multiplier
      let max_risk_per_trade := rm.capital * rm.config.max_position_pct
      if dollar_risk_per_share ≤ 0 then none
      else
        let qty : ℤ := ⌊max_risk_per_trade / dollar_risk_per_share⌋
        if qty < 1 then none
        else
          let required_cash := price * qty
          if required_cash > rm.available_cash then none
          else
            let sl_price := price - atr * rm.config.atr_stop_multiplier
            let tp_price := price + atr * rm.config.atr_take_multiplier
            some (qty, sl_price, tp_price)
    else percent_based_sizing rm price
  | none => percent_based_sizing rm price

/-- The quantity the chosen branch of `calculate_position_size` computes
before its feasibility checks: `⌊maxRiskBudget / riskPerShare⌋` in the
ATR branch, `⌊maxValue / price⌋` in the percent branch. -/
def sizing_qty (rm : RMState) (symbol : String) (price : ℚ) : ℤ :=
  match get_latest_atr rm.config symbol with
  | some atr =>
    if atr > 0 then
      ⌊rm.capital * rm.config.max_position_pct / (atr * rm.config.atr_stop_multiplier)⌋
    else ⌊rm.capital * rm.config.max_position_pct / price⌋
  | none => ⌊rm.capital * rm.config.max_position_pct / price⌋

/-- Embeds `RiskManager.get_equity_curve` (src/risk_manager.py lines 251-274) reduced
to the equity column: `daily_starting_capital` at the first trade's entry
time, then `equity_after` of each trade at its exit time.  The source sorts
the rows by timestamp; the records carry non-decreasing `utcnow` stamps in
append order (entry of the first trade precedes every exit), so the sort is
the identity and the model keeps append order.  With no trades the curve is
the single point `daily_starting_capital`, which the same expression yields. -/
def get_equity_curve (rm : RMState) : List ℚ :=
  rm.daily_starting_capital :: rm.trade_history.map (·.equity_after)

/-- Running-maximum scan of `get_current_drawdown`: `peak` is the cumulative
maximum so far, `acc` the largest drawdown seen so far. -/
def drawdown_scan : List ℚ → ℚ → ℚ → ℚ
  | [], _, acc => acc
  | e :: es, peak, acc =>
    let peak' := max peak e
    drawdown_scan es peak' (max acc ((peak' - e) / peak'))

/-- Embeds `RiskManager.get_current_drawdown` (src/risk_manager.py lines 276-288):
peaks = cumulative max of the equity curve, drawdowns = (peak − equity)/peak,
result = max drawdown.  The curve is never empty (its first row always
exists), and the first point has drawdown `(e − e)/e = 0`. -/
def get_current_drawdown (rm : RMState) : ℚ :=
  match get_equity_curve rm with
  | [] => 0
  | e :: es => drawdown_scan es e 0

/-- Embeds `RiskManager.can_open_position` (src/risk_manager.py lines 153-180). -/
def can_open_position (rm : RMState) (symbol : String) (price : ℚ) : Bool :=
  match calculate_position_size rm symbol price with
  | none => false
  | some (qty, _, _) =>
    let position_value := price * qty
    let max_value := rm.capital * rm.config.max_position_pct
    if position_value > max_value then false
    else if get_current_drawdown rm ≥ rm.config.daily_max_loss_pct / 100 then false
    else true

/-- Embeds `RiskManager.check_daily_targets` (src/risk_manager.py lines 290-313). -/
def check_daily_targets (rm : RMState) : Bool :=
  let current_return := (rm.capital - rm.daily_starting_capital) / rm.daily_starting_capital
  if current_return ≥ rm.config.target_daily_return_pct / 100 then false
  else if get_current_drawdown rm ≥ rm.config.daily_max_loss_pct / 100 then false
  else true

/-- Insertion-ordered dict assignment `d[k] = v`: overwrite in place when the
key exists, append otherwise. -/
def dictInsert {κ α : Type} [DecidableEq κ] (d : List (κ × α)) (k : κ) (v : α) :
    List (κ × α) :=
  if d.any (·.1 = k) then d.map (fun p => if p.1 = k then (k, v) else p)
  else d ++ [(k, v)]

/-- Dict lookup `d.get(k)`. -/
def dictGet {κ α : Type} [DecidableEq κ] (d : List (κ × α)) (k : κ) : Option α :=
  (d.find? (·.1 = k)).map (·.2)

-- ---------------------------------------------------------------------------
-- DataHandler (src/data_handler.py)
-- ---------------------------------------------------------------------------

/-- Floor a wall-clock time in seconds to its minute:
`dt.replace(second=0, microsecond=0)` (src/data_handler.py line 281). -/
def minuteFloor (t : ℤ) : ℤ := t - t % 60

/-- Insertion-ordered dict bucket append for the real-time buffer
(src/data_handler.py lines 283-290): create the minute's list if absent,
then append the tick. -/
def bufferAdd (buf : List (ℤ × List Tick)) (minute_ts : ℤ) (t : Tick) :
    List (ℤ × List Tick) :=
  if buf.any (·.1 = minute_ts) then
    buf.map (fun p => if p.1 = minute_ts then (p.1, p.2 ++ [t]) else p)
  else buf ++ [(minute_ts, [t])]

/-- Per-symbol state of a `DataHandler` (src/data_handler.py lines 58-94):
the claims are all per-symbol, so the dictionaries keyed by symbol are
represented by their entry for the symbol at hand.  `real_time_buffer` is the
insertion-ordered minute → tick-list dict, `historical_data` the bar rows in
row order, `last_timestamp` the last committed minute. -/
structure DHState where
  config : Config
  real_time_buffer : List (ℤ × List Tick)
  historical_data : List Bar
  last_timestamp : Option ℤ

/-- The pure tick-list aggregation inside `_finalize_minute_bar`
(src/data_handler.py lines 317-330), on a non-empty tick list `t :: ts` in
arrival order: open = first price (`iloc[0]`), close = last price
(`iloc[-1]`), high/low = max/min price, volume = sum of volumes. -/
def aggregate_ticks (minute_ts : ℤ) (t : Tick) (ts : List Tick) : Bar :=
  { ts := minute_ts
    open_p := t.price
    high_p := (ts.map (·.price)).foldl max t.price
    low_p := (ts.map (·.price)).foldl min t.price
    close_p := (ts.getLastD t).price
    volume := t.volume + (ts.map (·.volume)).sum }

/-- Embeds `DataHandler._prune_old_bars` (src/data_handler.py lines 371-386): keep
only the bars within the last `3 × max(ema_long_period, rsi_period,
bb_period)` minutes of the latest bar. -/
def prune_old_bars (config : Config) (hist : List Bar) : List Bar :=
  match hist with
  | [] => []
  | b :: bs =>
    let latest_ts := (bs.map (·.ts)).foldl max b.ts
    let lookback_minutes : ℕ :=
      max (max config.ema_long_period config.rsi_period) config.bb_period * 3
    let cutoff := latest_ts - 60 * (lookback_minutes : ℤ)
    (b :: bs).filter (·.ts ≥ cutoff)

/-- Embeds `DataHandler._finalize_minute_bar` (src/data_handler.py lines 300-369):
pop the minute's bucket (`pop(minute_ts, [])`); if empty, warn and return;
else aggregate it into a bar, append the bar, run the gap and outlier checks
(log-only, no state change), set `last_timestamp` if it was unset, prune old
bars, and recompute indicators (which rewrites the indicator columns only —
see `Bar`). -/
def finalize_minute_bar (s : DHState) (minute_ts : ℤ) : DHState :=
  let bucket := (dictGet s.real_time_buffer minute_ts).getD []
  let buffer' := s.real_time_buffer.filter (·.1 ≠ minute_ts)
  match bucket with
  | [] => { s with real_time_buffer := buffer' }
  | t :: ts =>
    let new_bar := aggregate_ticks minute_ts t ts
    let hist' := prune_old_bars s.config (s.historical_data ++ [new_bar])
    let last' := match s.last_timestamp with
      | none => some minute_ts
      | some l => some l
    { s with
      real_time_buffer := buffer'
      historical_data := hist'
      last_timestamp := last' }

/-- Embeds `DataHandler.update_realtime` (src/data_handler.py lines 265-298): floor
the tick time to its minute, append the tick to that minute's bucket, and —
only when the last committed minute exists and the tick's minute is strictly
beyond it — finalize every buffered minute `≤` the last committed minute (in
buffer insertion order, as the dict iteration does) and advance the marker. -/
def update_realtime (s : DHState) (new_tick : Tick) : DHState :=
  let minute_ts := minuteFloor new_tick.dt
  let s1 := { s with real_time_buffer := bufferAdd s.real_time_buffer minute_ts new_tick }
  match s.last_timestamp with
  | none => s1
  | some last_ts =>
    if minute_ts > last_ts then
      let to_finalize := (s1.real_time_buffer.filter (·.1 ≤ last_ts)).map (·.1)
      let s2 := to_finalize.foldl finalize_minute_bar s1
      { s2 with last_timestamp := some minute_ts }
    else s1

/-- Embeds `RiskManager.open_position` (src/risk_manager.py lines 182-211): size the
position, store it, debit `available_cash`; no-op when sizing is infeasible. -/
def open_position (rm : RMState) (symbol : String) (price : ℚ) : RMState :=
  match calculate_position_size rm symbol price with
  | none => rm
  | some (qty, sl_price, tp_price) =>
    let pos : Position :=
      { symbol := symbol, entry_price := price, quantity := qty
        stop_loss_price := sl_price, take_profit_price := tp_price, is_open := true }
    { rm with
      positions := dictInsert rm.positions symbol pos
      available_cash := rm.available_cash - price * qty }

-- ---------------------------------------------------------------------------
-- TradingBot (src/trading_bot.py)
-- ---------------------------------------------------------------------------

/-- The closed set of signal dictionaries `generate_signals` returns
(src/trading_bot.py lines 164-167, 253-270): the `signal` tag together with
the `price` and `quantity` fields the source puts in the dict (`SELL`,
`SELL_SL` and `SELL_TP` always carry quantity 0; the bare `HOLD` dict has
neither field). -/
inductive Decision where
  | buy (price : ℚ) (quantity : ℤ)
  | sell (price : ℚ) (quantity : ℤ)
  | sellStopLoss (price : ℚ) (quantity : ℤ)
  | sellTakeProfit (price : ℚ) (quantity : ℤ)
  | hold
deriving DecidableEq, Repr

/-- The `has_position` test of `generate_signals` (src/trading_bot.py lines
247-250): the symbol is in the positions dict and its position is open. -/
def has_position (rm : RMState) (symbol : String) : Bool :=
  match dictGet rm.positions symbol with
  | some p => p.is_open
  | none => false

/-- The `result` computed by `TradingBot.generate_signals` before the
stop-loss / take-profit override (src/trading_bot.py lines 252-262): start
from `HOLD`; `BUY` when `buy_score ≥ 1.5`, no open position,
`can_open_position` holds and sizing succeeds (with the RiskManager-computed
quantity); else `SELL` when a position is open and `sell_score ≥ 1.5`.  The
indicator and AI score computation (lines 192-242) only feeds the two
weighted scores, which are taken as inputs here; `price` is the latest close
the source reads from the indicator frame. -/
def signal_result (rm : RMState) (symbol : String)
    (price buy_score sell_score : ℚ) : Decision :=
  if buy_score ≥ 3/2 ∧ has_position rm symbol = false ∧
      can_open_position rm symbol price = true then
    match calculate_position_size rm symbol price with
    | some (quantity, _, _) => Decision.buy price quantity
    | none => Decision.hold
  else if has_position rm symbol = true ∧ sell_score ≥ 3/2 then
    Decision.sell price 0
  else Decision.hold

/-- The decision core of `TradingBot.generate_signals` (src/trading_bot.py
lines 244-279): the `result` of `signal_result`, replaced — when a position
is open — by `SELL_SL` if the current price breaches the stop-loss, else by
`SELL_TP` if it breaches the take-profit. -/
def generate_decision (rm : RMState) (symbol : String)
    (price buy_score sell_score : ℚ) : Decision :=
  if has_position rm symbol = true then
    match dictGet rm.positions symbol with
    | some pos =>
      if pos.check_stop_loss price then Decision.sellStopLoss price 0
      else if pos.check_take_profit price then Decision.sellTakeProfit price 0
      else signal_result rm symbol price buy_score sell_score
    | none => signal_result rm symbol price buy_score sell_score
  else signal_result rm symbol price buy_score sell_score

/-- Outcome of invoking one registered hook at the current arguments: either
it returned normally or it raised an error with a message. -/
inductive HookResult where
  | ok
  | failed (msg : String)
deriving DecidableEq, Repr

/-- The hook-invocation loops of `generate_signals` (src/trading_bot.py lines
172-176, 185-189, 273-277): each hook is called inside `try/except`; a raised
error appends a warning to the log and the loop continues with the next
hook. -/
def run_hooks : List HookResult → List String → List String
  | [], log => log
  | .ok :: hooks, log => run_hooks hooks log
  | .failed m :: hooks, log => run_hooks hooks (log ++ [m])

/-- Embeds `TradingBot.generate_signals` (src/trading_bot.py lines 153-279) with its
hook plumbing: run the `before_signal` hooks, return `HOLD` (after running the
`after_signal` hooks) when the frame is empty or shorter than
`max(ema_long_period, rsi_period, bb_period)`, otherwise compute the decision
core and run the `after_signal` hooks.  `before_hooks` / `after_hooks` are the
outcomes of the registered hooks at this call's arguments, `enough_data` the
history-length test, and the returned list the warnings logged for failed
hooks. -/
def generate_signals (before_hooks after_hooks : List HookResult)
    (enough_data : Bool) (rm : RMState) (symbol : String)
    (price buy_score sell_score : ℚ) : Decision × List String :=
  let log1 := run_hooks before_hooks []
  if enough_data = false then
    (Decision.hold, run_hooks after_hooks log1)
  else
    (generate_decision rm symbol price buy_score sell_score,
     run_hooks after_hooks log1)

/-- Embeds `RiskManager.close_position` (src/risk_manager.py lines 213-249): no-op
without an open position; otherwise realize the P&L into `capital`, credit
`available_cash`, mark the position closed and append the trade record.
The source mutates `pos.is_open` in place; the model replaces the dict entry
with the closed copy. -/
def close_position (rm : RMState) (symbol : String) (exit_price : ℚ) : RMState :=
  match dictGet rm.positions symbol with
  | none => rm
  | some pos =>
    if pos.is_open = false then rm
    else
      let profit := (exit_price - pos.entry_price) * pos.quantity
      let capital' := rm.capital + profit
      { rm with
        capital := capital'
        available_cash := rm.available_cash + exit_price * pos.quantity
        positions := dictInsert rm.positions symbol { pos with is_open := false }
        trade_history := rm.trade_history ++
          [{ symbol := symbol, entry_price := pos.entry_price, exit_price := exit_price
             quantity := pos.quantity, pnl := profit, equity_after := capital' }] }

-- ---------------------------------------------------------------------------
-- Concrete states used by the scenario theorems, counterexamples and witnesses
-- ---------------------------------------------------------------------------

/-- Settings matching the repository's own test fixtures
(tests/test_risk_manager.py): initial capital 1000, max position 50%, daily
target 2%, stop-loss 1%, take-profit 1.5%, daily max loss 3%, periods
5/10/14/20. -/
def cfgA : Config := Config.init 1000 (1/2) 2 1 (3/2) 3 5 10 14 20

/-- Freshly initialized risk manager over `cfgA`. -/
def rmA : RMState := RMState.init cfgA

/-- Scenario D of the spec: capital has reached 1020 with
`daily_starting_capital` 1000 and a 2% daily target. -/
def rmD : RMState := { rmA with capital := 1020 }

/-- Scenario A, after opening at price 100. -/
def rmA_opened : RMState := open_position rmA "AAPL" 100

/-- Scenario A, after then closing at price 102. -/
def rmA_closed : RMState := close_position rmA_opened "AAPL" 102

/-- A position held at entry 100 with stop-loss 99 and take-profit 101.5. -/
def posEx : Position :=
  { symbol := "AAPL", entry_price := 100, quantity := 5
    stop_loss_price := 99, take_profit_price := 203/2, is_open := true }

/-- Risk-manager state holding the open position `posEx`. -/
def rmP : RMState :=
  { rmA with positions := [("AAPL", posEx)], available_cash := 500 }

/-- A committed one-minute bar at minute 60. -/
def barEx : Bar :=
  { ts := 60, open_p := 1, high_p := 1, low_p := 1, close_p := 1, volume := 1 }

/-- Data-handler state whose last committed minute is 120, with an empty
real-time buffer. -/
def dhCommitted : DHState :=
  { config := cfgA, real_time_buffer := [], historical_data := [barEx]
    last_timestamp := some 120 }

/-- A tick at second 30, i.e. in minute 0, which is `≤` the last committed
minute of `dhCommitted`. -/
def lateTick : Tick := { dt := 30, price := 1, volume := 1 }

/-- Data-handler state with no committed minute (as after historical loading
returned no bars). -/
def dhFresh : DHState :=
  { config := cfgA, real_time_buffer := [], historical_data := []
    last_timestamp := none }

/-- A second tick, at second 70 (minute 60). -/
def tick70 : Tick := { dt := 70, price := 2, volume := 3 }

-- ---------------------------------------------------------------------------
-- Helper lemmas
-- ---------------------------------------------------------------------------

lemma left_le_foldl_max {α : Type} [LinearOrder α] (l : List α) (a : α) :
    a ≤ l.foldl max a := by
  induction l generalizing a with
  | nil => exact le_refl a
  | cons x xs ih => exact le_trans (le_max_left a x) (ih (max a x))

lemma mem_le_foldl_max {α : Type} [LinearOrder α] {l : List α} {x : α}
    (hx : x ∈ l) : ∀ a, x ≤ l.foldl max a := by
  induction hx with
  | head ys => exact fun a => le_trans (le_max_right a x) (left_le_foldl_max ys _)
  | tail y _ ih => exact fun a => ih (max a y)

lemma foldl_max_mem {α : Type} [LinearOrder α] (l : List α) (a : α) :
    l.foldl max a = a ∨ l.foldl max a ∈ l := by
  induction l generalizing a with
  | nil => exact Or.inl rfl
  | cons y ys ih =>
    rcases ih (max a y) with h | h
    · rcases max_choice a y with hm | hm
      · exact Or.inl (by simp only [List.foldl_cons]; rw [h, hm])
      · exact Or.inr (by simp only [List.foldl_cons]; rw [h, hm]; exact List.mem_cons_self y ys)
    · exact Or.inr (List.mem_cons_of_mem y (by simpa using h))

lemma foldl_min_le {α : Type} [LinearOrder α] (l : List α) (a : α) :
    l.foldl min a ≤ a := by
  induction l generalizing a with
  | nil => exact le_refl a
  | cons x xs ih => exact le_trans (ih (min a x)) (min_le_left a x)

lemma foldl_min_le_mem {α : Type} [LinearOrder α] {l : List α} {x : α}
    (hx : x ∈ l) : ∀ a, l.foldl min a ≤ x := by
  induction hx with
  | head ys => exact fun a => le_trans (foldl_min_le ys _) (min_le_right a x)
  | tail y _ ih => exact fun a => ih (min a y)

lemma foldl_min_mem {α : Type} [LinearOrder α] (l : List α) (a : α) :
    l.foldl min a = a ∨ l.foldl min a ∈ l := by
  induction l generalizing a with
  | nil => exact Or.inl rfl
  | cons y ys ih =>
    rcases ih (min a y) with h | h
    · rcases min_choice a y with hm | hm
      · exact Or.inl (by simp only [List.foldl_cons]; rw [h, hm])
      · exact Or.inr (by simp only [List.foldl_cons]; rw [h, hm]; exact List.mem_cons_self y ys)
    · exact Or.inr (List.mem_cons_of_mem y (by simpa using h))

lemma getLastD_eq_getLast {α : Type} : ∀ (ts : List α) (t : α),
    ts.getLastD t = (t :: ts).getLast (List.cons_ne_nil t ts)
  | [], _ => rfl
  | u :: us, t => by
    rw [List.getLastD_cons, getLastD_eq_getLast us u]
    exact (List.getLast_cons (List.cons_ne_nil u us)).symm

lemma update_realtime_of_none (s : DHState) (t : Tick)
    (h : s.last_timestamp = none) :
    update_realtime s t =
      { s with real_time_buffer :=
          bufferAdd s.real_time_buffer (minuteFloor t.dt) t } := by
  simp [update_realtime, h]

-- ---------------------------------------------------------------------------
-- Claim theorems
-- ---------------------------------------------------------------------------

/-- C1: for any non-empty, arrival-ordered list `t :: ts` of ticks buffered
for one minute of one symbol, the bar `_finalize_minute_bar` aggregates
(`aggregate_ticks`) satisfies: open = price of the first tick, close = price
of the last tick, high = an attained upper bound of the tick prices, low = an
attained lower bound, volume = sum of the tick volumes; and the aggregation is
a pure function of the tick list, so identical tick lists always produce an
identical bar. -/
theorem aggregate_ticks_ohlcv (minute_ts : ℤ) (t : Tick) (ts : List Tick) :
    (aggregate_ticks minute_ts t ts).open_p = t.price ∧
    (aggregate_ticks minute_ts t ts).close_p =
      ((t :: ts).getLast (List.cons_ne_nil t ts)).price ∧
    ((aggregate_ticks minute_ts t ts).high_p ∈ (t :: ts).map (·.price) ∧
      ∀ p ∈ (t :: ts).map (·.price), p ≤ (aggregate_ticks minute_ts t ts).high_p) ∧
    ((aggregate_ticks minute_ts t ts).low_p ∈ (t :: ts).map (·.price) ∧
      ∀ p ∈ (t :: ts).map (·.price), (aggregate_ticks minute_ts t ts).low_p ≤ p) ∧
    (aggregate_ticks minute_ts t ts).volume = ((t :: ts).map (·.volume)).sum ∧
    (∀ t' ts', t = t' → ts = ts' →
      aggregate_ticks minute_ts t ts = aggregate_ticks minute_ts t' ts') := by
  refine ⟨rfl, ?_, ⟨?_, ?_⟩, ⟨?_, ?_⟩, ?_, ?_⟩
  · show (ts.getLastD t).price = _
    rw [getLastD_eq_getLast]
  · show (ts.map (·.price)).foldl max t.price ∈ _
    rcases foldl_max_mem (ts.map (·.price)) t.price with h | h
    · rw [h]; exact List.mem_map_of_mem (·.price) (List.mem_cons_self t ts)
    · simp only [List.map_cons]
      exact List.mem_cons_of_mem _ h
  · intro p hp
    simp only [List.map_cons, List.mem_cons] at hp
    rcases hp with h | h
    · rw [h]; exact left_le_foldl_max _ _
    · exact mem_le_foldl_max h _
  · show (ts.map (·.price)).foldl min t.price ∈ _
    rcases foldl_min_mem (ts.map (·.price)) t.price with h | h
    · rw [h]; exact List.mem_map_of_mem (·.price) (List.mem_cons_self t ts)
    · simp only [List.map_cons]
      exact List.mem_cons_of_mem _ h
  · intro p hp
    simp only [List.map_cons, List.mem_cons] at hp
    rcases hp with h | h
    · rw [h]; exact foldl_min_le _ _
    · exact foldl_min_le_mem h _
  · simp [aggregate_ticks]
  · intro t' ts' h1 h2
    rw [h1, h2]

/-- Witness for C1 at a concrete tick list: the identical-input instance of
the determinism conjunct together with the open-price equation. -/
theorem aggregate_ticks_ohlcv_witness :
    (aggregate_ticks 0 lateTick [tick70]).open_p = lateTick.price ∧
    aggregate_ticks 0 lateTick [tick70] = aggregate_ticks 0 lateTick [tick70] :=
  ⟨(aggregate_ticks_ohlcv 0 lateTick [tick70]).1,
   (aggregate_ticks_ohlcv 0 lateTick [tick70]).2.2.2.2.2 lateTick [tick70] rfl rfl⟩

/-- C7 counterexample: in `dhCommitted` the last committed minute is 120 and
`lateTick` falls in minute 0 ≤ 120, yet `update_realtime` does not leave the
aggregation state unaffected — the tick is appended to the real-time buffer,
not dropped. -/
theorem late_tick_not_dropped_cex :
    dhCommitted.last_timestamp = some 120 ∧
    minuteFloor lateTick.dt ≤ 120 ∧
    (update_realtime dhCommitted lateTick).real_time_buffer ≠
      dhCommitted.real_time_buffer := by
  refine ⟨rfl, by decide, by decide⟩

/-- C7 (amended): a tick whose minute-floored timestamp is `≤` the last
committed minute is appended to its minute's buffer bucket (it is neither
dropped nor warned about); that call finalizes nothing, so the bar series and
the last committed minute are unchanged — but the buffer grows. -/
theorem late_tick_buffered (s : DHState) (t : Tick) (last : ℤ)
    (hl : s.last_timestamp = some last) (hle : minuteFloor t.dt ≤ last) :
    (update_realtime s t).historical_data = s.historical_data ∧
    (update_realtime s t).last_timestamp = s.last_timestamp ∧
    (update_realtime s t).real_time_buffer =
      bufferAdd s.real_time_buffer (minuteFloor t.dt) t := by
  have hgt : ¬ (minuteFloor t.dt > last) := not_lt.mpr hle
  simp [update_realtime, hl, hgt]

/-- Witness for the amended C7 at the concrete state `dhCommitted`. -/
theorem late_tick_buffered_witness :
    (update_realtime dhCommitted lateTick).historical_data =
      dhCommitted.historical_data ∧
    (update_realtime dhCommitted lateTick).last_timestamp =
      dhCommitted.last_timestamp ∧
    (update_realtime dhCommitted lateTick).real_time_buffer =
      bufferAdd dhCommitted.real_time_buffer (minuteFloor lateTick.dt) lateTick :=
  late_tick_buffered dhCommitted lateTick 120 rfl (by decide)

/-- C10: while a symbol's last committed minute is `None` (as after historical
loading returned no bars), each `update_realtime` call only appends the tick
to the real-time buffer, and over any sequence of ticks no minute is ever
finalized: `historical_data` and `last_timestamp` remain unchanged. -/
theorem update_realtime_no_commit (s : DHState) (ticks : List Tick)
    (h : s.last_timestamp = none) :
    (∀ t, update_realtime s t =
      { s with real_time_buffer :=
          bufferAdd s.real_time_buffer (minuteFloor t.dt) t }) ∧
    (ticks.foldl update_realtime s).last_timestamp = none ∧
    (ticks.foldl update_realtime s).historical_data = s.historical_data := by
  refine ⟨fun t => update_realtime_of_none s t h, ?_⟩
  induction ticks generalizing s with
  | nil => exact ⟨h, rfl⟩
  | cons t ts ih =>
    have h1 := update_realtime_of_none s t h
    have h2 : (update_realtime s t).last_timestamp = none := by rw [h1]; exact h
    obtain ⟨hl, hh⟩ := ih (update_realtime s t) h2
    refine ⟨hl, ?_⟩
    simp only [List.foldl_cons] at hh ⊢
    rw [hh, h1]

/-- Witness for C10 at the fresh state and two concrete ticks. -/
theorem update_realtime_no_commit_witness :
    (([lateTick, tick70].foldl update_realtime dhFresh).last_timestamp = none ∧
     ([lateTick, tick70].foldl update_realtime dhFresh).historical_data =
       dhFresh.historical_data) :=
  (update_realtime_no_commit dhFresh [lateTick, tick70] rfl).2

lemma percent_based_sizing_spec (rm : RMState) (price : ℚ) :
    (percent_based_sizing rm price = none ↔
      ⌊rm.capital * rm.config.max_position_pct / price⌋ < 1 ∨
      price * ((⌊rm.capital * rm.config.max_position_pct / price⌋ : ℤ) : ℚ) >
        rm.available_cash) ∧
    ∀ q sl tp, percent_based_sizing rm price = some (q, sl, tp) →
      q = ⌊rm.capital * rm.config.max_position_pct / price⌋ := by
  simp only [percent_based_sizing]
  split_ifs with h1 h2
  · exact ⟨by simp [h1], fun q sl tp h => by cases h⟩
  · exact ⟨by simp [h2], fun q sl tp h => by cases h⟩
  · refine ⟨by simp [h1, h2], fun q sl tp h => ?_⟩
    exact (congrArg (fun p => p.1) (Option.some.inj h)).symm

lemma percent_based_sizing_value_le {rm : RMState} {price : ℚ} {q : ℤ} {sl tp : ℚ}
    (hp : 0 < price) (h : percent_based_sizing rm price = some (q, sl, tp)) :
    price * (q : ℚ) ≤ rm.capital * rm.config.max_position_pct := by
  have hq := (percent_based_sizing_spec rm price).2 q sl tp h
  have h1 : ((q : ℚ)) ≤ rm.capital * rm.config.max_position_pct / price := by
    rw [hq]; exact Int.floor_le _
  have h2 : price * (q : ℚ) ≤
      price * (rm.capital * rm.config.max_position_pct / price) :=
    mul_le_mul_of_nonneg_left h1 (le_of_lt hp)
  have h3 : price * (rm.capital * rm.config.max_position_pct / price) =
      rm.capital * rm.config.max_position_pct := by
    field_simp
  rw [h3] at h2
  exact h2

/-- C2: for every symbol and positive price, `calculate_position_size`
returns `none` exactly when the quantity computed by the chosen branch is
`< 1` or `price × quantity` exceeds `available_cash`; whenever it returns a
sizing, the quantity is at least 1 (hence never negative).  The hypothesis on
`atr_stop_multiplier` holds for every constructed `Config`, whose `getattr`
default is 1.0 (see `Config.init`). -/
theorem calculate_position_size_infeasible_iff (rm : RMState) (symbol : String)
    (price : ℚ) (hp : 0 < price) (hm : 0 < rm.config.atr_stop_multiplier) :
    (calculate_position_size rm symbol price = none ↔
      sizing_qty rm symbol price < 1 ∨
      price * ((sizing_qty rm symbol price : ℤ) : ℚ) > rm.available_cash) ∧
    ∀ q sl tp, calculate_position_size rm symbol price = some (q, sl, tp) →
      1 ≤ q := by
  have hper := percent_based_sizing_spec rm price
  cases hatr : get_latest_atr rm.config symbol with
  | none =>
    have hc : calculate_position_size rm symbol price =
        percent_based_sizing rm price := by
      simp [calculate_position_size, hatr]
    have hq : sizing_qty rm symbol price =
        ⌊rm.capital * rm.config.max_position_pct / price⌋ := by
      simp [sizing_qty, hatr]
    rw [hc, hq]
    refine ⟨hper.1, fun q sl tp h => ?_⟩
    have hne : percent_based_sizing rm price ≠ none := by simp [h]
    have hnot := fun hcon => hne (hper.1.mpr hcon)
    push_neg at hnot
    rw [hper.2 q sl tp h]
    exact not_lt.mp (fun hlt => hne (hper.1.mpr (Or.inl hlt)))
  | some a =>
    by_cases ha : a > 0
    · have hdr : 0 < a * rm.config.atr_stop_multiplier := mul_pos ha hm
      have hq : sizing_qty rm symbol price =
          ⌊rm.capital * rm.config.max_position_pct /
            (a * rm.config.atr_stop_multiplier)⌋ := by
        simp [sizing_qty, hatr, ha]
      have hc : calculate_position_size rm symbol price =
          (if ⌊rm.capital * rm.config.max_position_pct /
                (a * rm.config.atr_stop_multiplier)⌋ < 1 then none
           else if price * ((⌊rm.capital * rm.config.max_position_pct /
                (a * rm.config.atr_stop_multiplier)⌋ : ℤ) : ℚ) >
                rm.available_cash then none
           else some (⌊rm.capital * rm.config.max_position_pct /
                (a * rm.config.atr_stop_multiplier)⌋,
                price - a * rm.config.atr_stop_multiplier,
                price + a * rm.config.atr_take_multiplier)) := by
        simp [calculate_position_size, hatr, ha, not_le.mpr hdr]
      rw [hc, hq]
      split_ifs with h1 h2
      · exact ⟨by simp [h1], fun q sl tp h => by cases h⟩
      · exact ⟨by simp [h2], fun q sl tp h => by cases h⟩
      · refine ⟨by simp [h1, h2], fun q sl tp h => ?_⟩
        have := (congrArg (fun p => p.1) (Option.some.inj h))
        simp only at this
        omega
    · have hc : calculate_position_size rm symbol price =
          percent_based_sizing rm price := by
        simp [calculate_position_size, hatr, ha]
      have hq : sizing_qty rm symbol price =
          ⌊rm.capital * rm.config.max_position_pct / price⌋ := by
        simp [sizing_qty, hatr, ha]
      rw [hc, hq]
      refine ⟨hper.1, fun q sl tp h => ?_⟩
      have hne : percent_based_sizing rm price ≠ none := by simp [h]
      rw [hper.2 q sl tp h]
      exact not_lt.mp (fun hlt => hne (hper.1.mpr (Or.inl hlt)))

/-- Witness for C2 at the test-fixture state, price 100. -/
theorem calculate_position_size_infeasible_iff_witness :
    (calculate_position_size rmA "AAPL" 100 = none ↔
      sizing_qty rmA "AAPL" 100 < 1 ∨
      100 * ((sizing_qty rmA "AAPL" 100 : ℤ) : ℚ) > rmA.available_cash) ∧
    ∀ q sl tp, calculate_position_size rmA "AAPL" 100 = some (q, sl, tp) →
      1 ≤ q :=
  calculate_position_size_infeasible_iff rmA "AAPL" 100 (by norm_num) (by decide)

/-- C3: `check_daily_targets` returns `false` exactly when the daily return
`(capital − daily_starting_capital)/daily_starting_capital` has reached the
target threshold or the current drawdown has reached the daily max-loss
threshold, and `true` otherwise; in particular it returns `false` in Scenario
D (capital 1020, daily starting capital 1000, 2% target). -/
theorem check_daily_targets_stop_iff (rm : RMState) :
    (check_daily_targets rm = false ↔
      (rm.capital - rm.daily_starting_capital) / rm.daily_starting_capital ≥
        rm.config.target_daily_return_pct / 100 ∨
      get_current_drawdown rm ≥ rm.config.daily_max_loss_pct / 100) ∧
    check_daily_targets rmD = false := by
  constructor
  · simp only [check_daily_targets]
    split_ifs with h1 h2
    · simp [h1]
    · simp [h2]
    · simp [h1, h2]
  · have hdd : get_current_drawdown rmD = 0 := rfl
    norm_num [check_daily_targets, hdd, rmD, rmA, RMState.init, cfgA, Config.init]

/-- C5: for a state whose config carries no data-handler reference — true of
every `Config.__init__`-constructed object, see `Config.init` — and any
positive price, `can_open_position` succeeds exactly when
`calculate_position_size` is feasible and the current drawdown is below the
daily max-loss threshold (the intermediate position-value check of the source
is redundant in the percent-based branch). -/
theorem can_open_position_iff (rm : RMState) (symbol : String) (price : ℚ)
    (hp : 0 < price) (href : rm.config.data_handler_ref = none) :
    can_open_position rm symbol price = true ↔
      (∃ q sl tp, calculate_position_size rm symbol price = some (q, sl, tp)) ∧
      get_current_drawdown rm < rm.config.daily_max_loss_pct / 100 := by
  have hatr : get_latest_atr rm.config symbol = none := by
    simp [get_latest_atr, href]
  have hsz : calculate_position_size rm symbol price =
      percent_based_sizing rm price := by
    simp [calculate_position_size, hatr]
  rw [can_open_position, hsz]
  cases hps : percent_based_sizing rm price with
  | none => simp
  | some info =>
    obtain ⟨q, sl, tp⟩ := info
    have hle : ¬ (price * (q : ℚ) > rm.capital * rm.config.max_position_pct) :=
      not_lt.mpr (percent_based_sizing_value_le hp hps)
    simp only [hle, if_false]
    constructor
    · intro h
      refine ⟨⟨q, sl, tp, rfl⟩, ?_⟩
      by_contra hdd
      rw [if_pos (not_lt.mp hdd)] at h
      cases h
    · rintro ⟨-, hdd⟩
      rw [if_neg (not_le.mpr hdd)]

/-- Witness for C5 at the test-fixture state, price 100. -/
theorem can_open_position_iff_witness :
    can_open_position rmA "AAPL" 100 = true ↔
      (∃ q sl tp, calculate_position_size rmA "AAPL" 100 = some (q, sl, tp)) ∧
      get_current_drawdown rmA < rmA.config.daily_max_loss_pct / 100 :=
  can_open_position_iff rmA "AAPL" 100 (by norm_num) rfl

/-- C6 (Scenario A): with capital 1000, `max_position_pct` 0.5, price 100 and
no ATR available, sizing yields quantity `⌊500/100⌋ = 5`; opening at 100 and
then closing at 102 yields pnl 10, capital 1010, and `available_cash`
increased by `102 × 5` over its post-open value. -/
theorem scenario_a_open_close :
    sizing_qty rmA "AAPL" 100 = 5 ∧
    calculate_position_size rmA "AAPL" 100 = some (5, 99, 203/2) ∧
    rmA_opened.available_cash = 500 ∧
    rmA_closed.capital = 1010 ∧
    rmA_closed.available_cash = rmA_opened.available_cash + 102 * 5 ∧
    rmA_closed.trade_history.map (·.pnl) = [10] := by
  have hq : sizing_qty rmA "AAPL" 100 = 5 := by
    norm_num [sizing_qty, get_latest_atr, rmA, RMState.init, cfgA, Config.init]
  have hsz : calculate_position_size rmA "AAPL" 100 = some (5, 99, 203/2) := by
    norm_num [calculate_position_size, get_latest_atr, percent_based_sizing,
      rmA, RMState.init, cfgA, Config.init]
  have hocash : rmA_opened.available_cash = 500 := by
    rw [rmA_opened, open_position, hsz]
    norm_num [rmA, RMState.init, cfgA, Config.init]
  have hopos : rmA_opened.positions = [("AAPL", posEx)] := by
    rw [rmA_opened, open_position, hsz]
    simp [dictInsert, posEx, rmA, RMState.init, cfgA, Config.init]
  have hocap : rmA_opened.capital = 1000 := by
    rw [rmA_opened, open_position, hsz]
    norm_num [rmA, RMState.init, cfgA, Config.init]
  have hohist : rmA_opened.trade_history = [] := by
    rw [rmA_opened, open_position, hsz]
    simp [rmA, RMState.init, cfgA, Config.init]
  have hget : dictGet rmA_opened.positions "AAPL" = some posEx := by
    rw [hopos]; rfl
  have hcl : rmA_closed = close_position rmA_opened "AAPL" 102 := rfl
  rw [close_position, hget] at hcl
  simp only [posEx, ite_false, Bool.false_eq_true] at hcl
  refine ⟨hq, hsz, hocash, ?_, ?_, ?_⟩
  · rw [hcl, hocap]; norm_num
  · rw [hcl, hocash]; norm_num
  · rw [hcl, hohist]; norm_num

/-- C9: for every `RiskManager` whose config was built by `Config.__init__`
(which never sets a `_data_handler_ref` attribute), `_get_latest_atr` returns
`None` for every symbol, so `calculate_position_size` coincides with its
percent-based fallback branch: the ATR-based sizing path is unreachable. -/
theorem atr_sizing_unreachable (ic mp tr slp tpp dm : ℚ) (e1 e2 r b : ℕ)
    (rm : RMState) (symbol : String) (price : ℚ)
    (hcfg : rm.config = Config.init ic mp tr slp tpp dm e1 e2 r b) :
    get_latest_atr rm.config symbol = none ∧
    calculate_position_size rm symbol price = percent_based_sizing rm price := by
  have h : get_latest_atr rm.config symbol = none := by
    simp [get_latest_atr, hcfg, Config.init]
  exact ⟨h, by simp [calculate_position_size, h]⟩

/-- Witness for C9 at the test-fixture configuration. -/
theorem atr_sizing_unreachable_witness :
    get_latest_atr rmA.config "AAPL" = none ∧
    calculate_position_size rmA "AAPL" 100 = percent_based_sizing rmA 100 :=
  atr_sizing_unreachable 1000 (1/2) 2 1 (3/2) 3 5 10 14 20 rmA "AAPL" 100 rfl

lemma run_hooks_mono {m : String} : ∀ (hooks : List HookResult) (log : List String),
    m ∈ log → m ∈ run_hooks hooks log
  | [], _, h => h
  | .ok :: hooks, log, h => run_hooks_mono hooks log h
  | .failed m2 :: hooks, log, h =>
    run_hooks_mono hooks (log ++ [m2]) (List.mem_append_left _ h)

lemma failed_mem_run_hooks {m : String} {hooks : List HookResult}
    (h : HookResult.failed m ∈ hooks) : ∀ log, m ∈ run_hooks hooks log := by
  induction h with
  | head as => exact fun log => run_hooks_mono as (log ++ [m]) (by simp)
  | tail b _ ih =>
    intro log
    cases b with
    | ok => exact ih log
    | failed m2 => exact ih (log ++ [m2])

/-- C8: hook failures are isolated — the decision `generate_signals` returns
with any list of (possibly failing) `before_signal` / `after_signal` hooks
equals the decision with no hooks registered, signal generation always
completes, and every failing hook's message is logged. -/
theorem hook_failures_isolated (before_hooks after_hooks : List HookResult)
    (enough_data : Bool) (rm : RMState) (symbol : String)
    (price buy_score sell_score : ℚ) :
    (generate_signals before_hooks after_hooks enough_data rm symbol
        price buy_score sell_score).1 =
      (generate_signals [] [] enough_data rm symbol
        price buy_score sell_score).1 ∧
    ∀ m, HookResult.failed m ∈ before_hooks ++ after_hooks →
      m ∈ (generate_signals before_hooks after_hooks enough_data rm symbol
        price buy_score sell_score).2 := by
  constructor
  · cases enough_data <;> rfl
  · intro m hm
    have h2 : (generate_signals before_hooks after_hooks enough_data rm symbol
        price buy_score sell_score).2 =
        run_hooks after_hooks (run_hooks before_hooks []) := by
      cases enough_data <;> rfl
    rw [h2]
    rcases List.mem_append.mp hm with h | h
    · exact run_hooks_mono after_hooks _ (failed_mem_run_hooks h [])
    · exact failed_mem_run_hooks h _

/-- Witness for C8: one failing before-hook at a concrete state. -/
theorem hook_failures_isolated_witness :
    (generate_signals [HookResult.failed "boom"] [] true rmA "AAPL"
        100 0 0).1 =
      (generate_signals [] [] true rmA "AAPL" 100 0 0).1 ∧
    "boom" ∈ (generate_signals [HookResult.failed "boom"] [] true rmA "AAPL"
        100 0 0).2 :=
  ⟨(hook_failures_isolated [HookResult.failed "boom"] [] true rmA "AAPL"
      100 0 0).1,
   (hook_failures_isolated [HookResult.failed "boom"] [] true rmA "AAPL"
      100 0 0).2 "boom" (by simp)⟩


lemma has_position_iff (rm : RMState) (symbol : String) :
    has_position rm symbol = true ↔
      ∃ pos, dictGet rm.positions symbol = some pos ∧ pos.is_open = true := by
  unfold has_position
  cases h : dictGet rm.positions symbol with
  | none => simp
  | some p => simp

lemma generate_decision_open (rm : RMState) (symbol : String)
    (price buy_score sell_score : ℚ) (pos : Position)
    (hpos : dictGet rm.positions symbol = some pos)
    (hopen : pos.is_open = true) :
    generate_decision rm symbol price buy_score sell_score =
      (if price ≤ pos.stop_loss_price then Decision.sellStopLoss price 0
       else if price ≥ pos.take_profit_price then Decision.sellTakeProfit price 0
       else signal_result rm symbol price buy_score sell_score) := by
  have hhp : has_position rm symbol = true := by
    simp [has_position, hpos, hopen]
  simp [generate_decision, hhp, hpos, Position.check_stop_loss,
    Position.check_take_profit]

lemma generate_decision_no_position (rm : RMState) (symbol : String)
    (price buy_score sell_score : ℚ)
    (hnp : has_position rm symbol = false) :
    generate_decision rm symbol price buy_score sell_score =
      signal_result rm symbol price buy_score sell_score := by
  simp [generate_decision, hnp]

lemma signal_result_of_position (rm : RMState) (symbol : String)
    (price buy_score sell_score : ℚ)
    (hhp : has_position rm symbol = true) :
    signal_result rm symbol price buy_score sell_score =
      (if sell_score ≥ 3/2 then Decision.sell price 0 else Decision.hold) := by
  rw [signal_result]
  rw [if_neg (by simp [hhp])]
  by_cases hss : sell_score ≥ 3/2
  · rw [if_pos ⟨hhp, hss⟩, if_pos hss]
  · rw [if_neg (fun hc => hss hc.2), if_neg hss]

/-- C4: decision priority of `generate_signals`.  With an open position:
stop-loss breach yields `SELL_SL`; otherwise take-profit breach yields
`SELL_TP`; otherwise `sell_score ≥ 1.5` yields `SELL`, and anything else
`HOLD`.  A `BUY` is only ever produced with no open position, `buy_score ≥
1.5` and `can_open_position` succeeding, with the RiskManager-computed
quantity; with no open position and the buy conditions failing, the decision
is `HOLD`. -/
theorem generate_decision_priority (rm : RMState) (symbol : String)
    (price buy_score sell_score : ℚ) :
    (∀ pos, dictGet rm.positions symbol = some pos → pos.is_open = true →
      ((price ≤ pos.stop_loss_price →
          generate_decision rm symbol price buy_score sell_score =
            Decision.sellStopLoss price 0) ∧
       (¬ price ≤ pos.stop_loss_price → price ≥ pos.take_profit_price →
          generate_decision rm symbol price buy_score sell_score =
            Decision.sellTakeProfit price 0) ∧
       (¬ price ≤ pos.stop_loss_price → ¬ price ≥ pos.take_profit_price →
          sell_score ≥ 3/2 →
          generate_decision rm symbol price buy_score sell_score =
            Decision.sell price 0) ∧
       (¬ price ≤ pos.stop_loss_price → ¬ price ≥ pos.take_profit_price →
          ¬ sell_score ≥ 3/2 →
          generate_decision rm symbol price buy_score sell_score =
            Decision.hold))) ∧
    (∀ p q, generate_decision rm symbol price buy_score sell_score =
        Decision.buy p q →
      has_position rm symbol = false ∧ buy_score ≥ 3/2 ∧
      can_open_position rm symbol price = true ∧ p = price ∧
      ∃ sl tp, calculate_position_size rm symbol price = some (q, sl, tp)) ∧
    (has_position rm symbol = false →
      (¬ buy_score ≥ 3/2 ∨ can_open_position rm symbol price = false) →
      generate_decision rm symbol price buy_score sell_score =
        Decision.hold) := by
  refine ⟨?_, ?_, ?_⟩
  · intro pos hpos hopen
    have hhp : has_position rm symbol = true := by
      simp [has_position, hpos, hopen]
    have hgd := generate_decision_open rm symbol price buy_score sell_score
      pos hpos hopen
    have hres := signal_result_of_position rm symbol price buy_score
      sell_score hhp
    refine ⟨?_, ?_, ?_, ?_⟩
    · intro hsl
      rw [hgd, if_pos hsl]
    · intro hsl htp
      rw [hgd, if_neg hsl, if_pos htp]
    · intro hsl htp hss
      rw [hgd, if_neg hsl, if_neg htp, hres, if_pos hss]
    · intro hsl htp hss
      rw [hgd, if_neg hsl, if_neg htp, hres, if_neg hss]
  · intro p q hbuy
    have hsig :
        signal_result rm symbol price buy_score sell_score = Decision.buy p q →
        has_position rm symbol = false ∧ buy_score ≥ 3/2 ∧
        can_open_position rm symbol price = true ∧ p = price ∧
        ∃ sl tp, calculate_position_size rm symbol price = some (q, sl, tp) := by
      intro hres
      rw [signal_result] at hres
      split_ifs at hres with h1 h2
      · obtain ⟨hb, hnp, hco⟩ := h1
        cases hc : calculate_position_size rm symbol price with
        | none => rw [hc] at hres; cases hres
        | some info =>
          obtain ⟨q2, sl2, tp2⟩ := info
          rw [hc] at hres
          injection hres with h3 h4
          exact ⟨hnp, hb, hco, h3.symm, sl2, tp2, by rw [h4]⟩
    by_cases hhp : has_position rm symbol = true
    · obtain ⟨pos, hpos, hopen⟩ := (has_position_iff rm symbol).mp hhp
      rw [generate_decision_open rm symbol price buy_score sell_score
        pos hpos hopen] at hbuy
      split_ifs at hbuy
      exact hsig hbuy
    · rw [generate_decision_no_position rm symbol price buy_score sell_score
        (Bool.not_eq_true _ ▸ hhp)] at hbuy
      exact hsig hbuy
  · intro hnp hfail
    have hres : signal_result rm symbol price buy_score sell_score =
        Decision.hold := by
      rw [signal_result]
      rw [if_neg (fun hc => by
        rcases hfail with hf | hf
        · exact hf hc.1
        · rw [hc.2.2] at hf; cases hf)]
      rw [if_neg (fun hc => by rw [hnp] at hc; cases hc.1)]
    rw [generate_decision_no_position rm symbol price buy_score sell_score hnp,
      hres]

/-- Witness for C4: with the open position `posEx` (stop-loss 99) and price
90, the decision is `SELL_SL`. -/
theorem generate_decision_priority_witness :
    generate_decision rmP "AAPL" 90 0 0 = Decision.sellStopLoss 90 0 :=
  (((generate_decision_priority rmP "AAPL" 90 0 0).1 posEx rfl rfl).1
    (by norm_num [posEx]))
